import Mathlib

/-!
Verification of the liftoff-agent repository: a shallow embedding of
`src/session_manager.py` (the session lifecycle controller),
`src/metadata_transformer.py` (the configuration normalizer) and
`src/llm_providers.py` (the voice/backend selector), together with
theorems settling the specified properties.
-/

namespace Liftoff

/-! ## JSON-like values

The external metadata is a Python dict mapping string keys to loosely
typed values.  The model covers the value universe that the UI
metadata contract documents and the claims exercise: strings and
integers, as an association list.  Other JSON shapes (nested objects,
arrays, floats, booleans, null) are outside the model: for several of
them the source raises `TypeError` (a dict-valued `duration` hits
`int * dict`, a dict-valued `type` is an unhashable key for
`duration_mapping.get`), so the model makes no statement about them
rather than collapsing those error paths.  Within this universe every
operation of the source is total except the description join, and that
one failure is modelled exactly (see `transform_ui_metadata`).
Lookup follows Python `dict.get`: first (unique) binding wins, with an
optional default. -/

inductive JValue where
  | s (v : String)
  | n (v : Int)

/-- Values of the dict returned by `transform_ui_metadata`: the
carried-over or computed string/integer values, plus the nested
`_original` dict holding the input mapping. -/
inductive OutValue where
  | s (v : String)
  | n (v : Int)
  | obj (fields : List (String × JValue))

/-- Injection of an input value into the output value type, for the
fields the source copies through unchanged. -/
def JValue.toOut : JValue → OutValue
  | .s v => .s v
  | .n v => .n v

/-- Association-list lookup, the embedding of a Python `dict` read. -/
def alist_get {α : Type} (l : List (String × α)) (k : String) : Option α :=
  match l with
  | [] => none
  | (k', v) :: t => if k' = k then some v else alist_get t k

/-- Python `str()` as performed by the f-string interpolations in
`transform_ui_metadata`: a string renders as itself, an integer as its
decimal digits — exactly `str` on both shapes of the universe. -/
def pyStr : JValue → String
  | .s v => v
  | .n v => toString v

/-- Python `n * s` on an int and a string: the string repeated `n`
times (empty for non-positive `n`). -/
def pyMulIntStr (k : Int) (v : String) : String :=
  String.join (List.replicate k.toNat v)

/-- Python `base * value` as it occurs in `duration_minutes =
base_duration * duration_multiplier` for an int `base`: int times int
multiplies, int times str repeats the string. -/
def pyMulInt (k : Int) : JValue → OutValue
  | .n i => .n (k * i)
  | .s v => .s (pyMulIntStr k v)

/-! ## metadata_transformer.py -/

/-- The `duration_mapping` table of `transform_ui_metadata`: base
minutes per duration unit, keyed by agent type. -/
def duration_mapping : List (String × Int) :=
  [("interview", 15), ("presentation", 10), ("english_speaking", 10), ("general", 10)]

/-- Embedding of `transform_ui_metadata(ui_metadata)` from
`src/metadata_transformer.py`.  Field for field:
`agent_type = get("type", "general")`, `gender = get("gender",
"female")`, `duration_multiplier = get("duration", 2)`; the
description parts are collected in source order (raw description,
Interviewer, Level, Specialty) exactly when the key is present and are
joined with ". "; `base_duration = duration_mapping.get(agent_type,
10)` (an int-valued `agent_type` is hashable and absent from the
table, so it takes the default 10, as in Python); `duration_minutes =
base_duration * duration_multiplier`; the returned dict literal
carries the five keys in source order with `_original` holding the
input unchanged.

The source appends the raw description value to `description_parts`
without `str()`, and `". ".join(description_parts)` raises `TypeError`
on any non-string element; the three other parts are f-strings and
always strings.  So within the value universe the call raises exactly
when the description value is present and not a string: the embedding
returns `none` there (the exception propagates, no dict is returned)
and `some` of the returned dict everywhere else. -/
def transform_ui_metadata (ui : List (String × JValue)) :
    Option (List (String × OutValue)) :=
  let agent_type := (alist_get ui "type").getD (.s "general")
  let gender := (alist_get ui "gender").getD (.s "female")
  let duration_multiplier := (alist_get ui "duration").getD (.n 2)
  let later_parts : List String :=
    (match alist_get ui "display_name" with
     | some v => ["Interviewer: " ++ pyStr v]
     | none => []) ++
    (match alist_get ui "level" with
     | some v => ["Level: " ++ pyStr v]
     | none => []) ++
    (match alist_get ui "specialty" with
     | some v => ["Specialty: " ++ pyStr v]
     | none => [])
  let description_parts : Option (List String) :=
    match alist_get ui "description" with
    | some (.s v) => some (v :: later_parts)
    | some (.n _) => none
    | none => some later_parts
  match description_parts with
  | none => none
  | some parts =>
    let enhanced_description := String.intercalate ". " parts
    let base_duration : Int :=
      match agent_type with
      | .s t => (alist_get duration_mapping t).getD 10
      | .n _ => 10
    some [("agent_type", agent_type.toOut),
          ("description", .s enhanced_description),
          ("gender", gender.toOut),
          ("duration_minutes", pyMulInt base_duration duration_multiplier),
          ("_original", .obj ui)]

/-- The reference input of the spec test scenario:
`{"type":"interview","description":"X","display_name":"Sarah","level":"L5"}`
with no `specialty`, no `gender` and no `duration`. -/
def refInput : List (String × JValue) :=
  [("type", .s "interview"), ("description", .s "X"),
   ("display_name", .s "Sarah"), ("level", .s "L5")]

/-- The dict `transform_ui_metadata` returns on the reference
input. -/
def refOutput : List (String × OutValue) :=
  [("agent_type", .s "interview"),
   ("description", .s "X. Interviewer: Sarah. Level: L5"),
   ("gender", .s "female"),
   ("duration_minutes", .n 30),
   ("_original", .obj refInput)]

/-- The description synthesis in the words of the spec: the optional
clauses, in order (raw description, "Interviewer: <display_name>",
"Level: <level>", "Specialty: <specialty>"), each included exactly
when present, joined with ". " separators.  Stated independently of
`transform_ui_metadata` to compare the two. -/
def specDescription (ui : List (String × JValue)) : String :=
  String.intercalate ". " (List.filterMap id
    [(alist_get ui "description").map pyStr,
     (alist_get ui "display_name").map (fun v => "Interviewer: " ++ pyStr v),
     (alist_get ui "level").map (fun v => "Level: " ++ pyStr v),
     (alist_get ui "specialty").map (fun v => "Specialty: " ++ pyStr v)])

/-! ## llm_providers.py -/

/-- The `GENDER_VOICES` table of `GoogleLLMProvider`. -/
def GoogleLLMProvider.GENDER_VOICES : List (String × List String) :=
  [("male", ["Puck", "Charon", "Fenrir"]), ("female", ["Aoede", "Kore"])]

/-- The `GENDER_VOICES` table of `OpenAILLMProvider`. -/
def OpenAILLMProvider.GENDER_VOICES : List (String × List String) :=
  [("male", ["onyx", "echo"]), ("female", ["nova", "shimmer"])]

/-- Python `str.lower` as it acts on the ASCII identifiers compared
against the provider tables (upper-case ASCII letters are shifted to
lower case, everything else unchanged). -/
def py_lower (s : String) : String :=
  String.mk (s.data.map (fun c => if c.isUpper then Char.ofNat (c.toNat + 32) else c))

/-- Embedding of `random.choice(l)`: the randomness source is made
explicit as a `pick` argument and reduced modulo the list length, so
every possible draw is covered by quantifying over `pick`.
(`random.choice` raises on an empty list; the model returns `""`,
a case no provider table reaches.) -/
def py_choice (l : List String) (pick : Nat) : String :=
  l.getD (pick % l.length) ""

/-- Embedding of `GoogleLLMProvider.get_random_voice_for_gender`:
lowercase the gender, look it up in `GENDER_VOICES` with the female
list as the `dict.get` default, and draw a random element. -/
def GoogleLLMProvider.get_random_voice_for_gender (gender : String) (pick : Nat) : String :=
  let g := py_lower gender
  let voices := (alist_get GoogleLLMProvider.GENDER_VOICES g).getD
    ((alist_get GoogleLLMProvider.GENDER_VOICES "female").getD [])
  py_choice voices pick

/-- The two provider classes the factory can instantiate. -/
inductive ProviderKind where
  | google
  | openai
deriving DecidableEq

/-- The `_providers` registry of `LLMFactory`. -/
def LLMFactory.providers : List (String × ProviderKind) :=
  [("google", .google), ("openai", .openai)]

/-- Embedding of `LLMFactory.get_provider`: lowercase lookup in the
registry, defaulting to the Google provider. -/
def LLMFactory.get_provider (provider_name : String) : ProviderKind :=
  (alist_get LLMFactory.providers (py_lower provider_name)).getD .google

/-! ## session_manager.py

`SessionTimeManager._monitor_time` is a polling loop: each iteration
computes the remaining time, ends the session when it is non-positive,
otherwise fires the 5-minute warning (`remaining <= 5 min` and flag
unset), else the 1-minute warning (`remaining <= 1 min` and flag
unset), then sleeps for the poll cadence (30 seconds in the source).

The embedding works in whole seconds, with the remaining time `r` as
an `Int` (5 minutes = 300, 1 minute = 60).  The poll cadence is a
parameter `c` because the spec quantifies over it; the source fixes
`c = 30` via `asyncio.sleep(30)`.  Awaited backend calls are treated
as instantaneous, so the remaining time drops by exactly `c` between
polls.

Each `session.generate_reply` call may raise a backend error; the
oracle `fail` says whether the i-th call (0-based, in call order)
raises.  The source sets each warning flag *before* the corresponding
call and the loop catches only `asyncio.CancelledError`, so a raised
backend error propagates out of the task: the model records this as
`crashed = true` with no further steps.  External cancellation
(`stop_monitoring`) is modelled by the `fuel` argument: the task is
cancelled after `fuel` poll iterations, and because the loop body
catches `CancelledError` with `pass`, a cancelled run returns normally
(`crashed = false`) with the events emitted so far. -/

/-- The observable side effects of the monitor: the two warning
instructions, the end-of-session instruction and the 10-second grace
sleep that follows it. -/
inductive Ev where
  | warn5
  | warn1
  | endMsg
  | grace
deriving DecidableEq

/-- The mutable flags `_warning_sent_5min` and `_warning_sent_1min`. -/
structure MState where
  warned5 : Bool
  warned1 : Bool
deriving DecidableEq

/-- Flag state at `__init__`: both warnings unsent. -/
def MState.init : MState := ⟨false, false⟩

/-- Result of a (possibly truncated) run of the monitor loop: the
trace of completed side effects, each tagged with the remaining time
at the poll that produced it, whether an uncaught exception propagated
out of the task, and the final flag state. -/
structure Outcome where
  trace : List (Int × Ev)
  crashed : Bool
  final : MState
deriving DecidableEq

/-- Embedding of the `_monitor_time` loop (with `_end_session`
inlined at the `remaining <= 0` branch, as in the source).  `fail` is
the backend-error oracle, `ci` the index of the next
`generate_reply` call, `s` the flag state, `r` the remaining time in
seconds at the current poll, `c` the poll cadence in seconds and
`fuel` the number of polls before external cancellation. -/
def monitor (fail : Nat → Bool) (ci : Nat) (s : MState) (r : Int) (c : Nat) :
    Nat → Outcome
  | 0 => ⟨[], false, s⟩
  | Nat.succ fuel =>
    if r ≤ 0 then
      -- `_end_session`: one final instruction, then `asyncio.sleep(10)`, then break
      if fail ci then ⟨[], true, s⟩
      else ⟨[(r, .endMsg), (r, .grace)], false, s⟩
    else if r ≤ 300 ∧ s.warned5 = false then
      -- flag is assigned before the awaited call
      let s' : MState := ⟨true, s.warned1⟩
      if fail ci then ⟨[], true, s'⟩
      else
        let o := monitor fail (ci + 1) s' (r - (c : Int)) c fuel
        ⟨(r, .warn5) :: o.trace, o.crashed, o.final⟩
    else if r ≤ 60 ∧ s.warned1 = false then
      let s' : MState := ⟨s.warned5, true⟩
      if fail ci then ⟨[], true, s'⟩
      else
        let o := monitor fail (ci + 1) s' (r - (c : Int)) c fuel
        ⟨(r, .warn1) :: o.trace, o.crashed, o.final⟩
    else
      monitor fail ci s (r - (c : Int)) c fuel

/-- The oracle of a backend that never fails. -/
def noFail : Nat → Bool := fun _ => false

/-- The oracle of a backend whose first `generate_reply` call fails. -/
def failFirst : Nat → Bool := fun i => i == 0

/-- Number of occurrences of event `e` in a trace. -/
def countEv (e : Ev) (t : List (Int × Ev)) : Nat :=
  t.countP (fun p => decide (p.2 = e))

@[simp]
theorem countEv_nil (e : Ev) : countEv e [] = 0 := rfl

@[simp]
theorem countEv_cons (e : Ev) (x : Int × Ev) (t : List (Int × Ev)) :
    countEv e (x :: t) = countEv e t + (if x.2 = e then 1 else 0) := by
  simp [countEv, List.countP_cons]

/-! ### Helper lemmas about the monitor loop -/

/-- Once the 5-minute flag is set, no further `warn5` event is ever
produced, over any oracle and any fuel. -/
theorem monitor_warn5_zero (f : Nat → Bool) (c : Nat) :
    ∀ (fuel ci : Nat) (s : MState) (r : Int), s.warned5 = true →
      countEv .warn5 (monitor f ci s r c fuel).trace = 0 := by
  intro fuel
  induction fuel with
  | zero =>
    intro ci s r _
    simp [monitor]
  | succ n ih =>
    intro ci s r hw
    simp only [monitor]
    split_ifs with h0 hf h5 hf h1 hf
    · simp
    · simp
    · exact absurd h5.2 (by simp [hw])
    · exact absurd h5.2 (by simp [hw])
    · simp
    · simpa using ih (ci + 1) ⟨s.warned5, true⟩ (r - (c : Int)) hw
    · exact ih ci s (r - (c : Int)) hw

/-- Once the 1-minute flag is set, no further `warn1` event is ever
produced. -/
theorem monitor_warn1_zero (f : Nat → Bool) (c : Nat) :
    ∀ (fuel ci : Nat) (s : MState) (r : Int), s.warned1 = true →
      countEv .warn1 (monitor f ci s r c fuel).trace = 0 := by
  intro fuel
  induction fuel with
  | zero =>
    intro ci s r _
    simp [monitor]
  | succ n ih =>
    intro ci s r hw
    simp only [monitor]
    split_ifs with h0 hf h5 hf h1 hf
    · simp
    · simp
    · simp
    · simpa using ih (ci + 1) ⟨true, s.warned1⟩ (r - (c : Int)) hw
    · exact absurd h1.2 (by simp [hw])
    · exact absurd h1.2 (by simp [hw])
    · exact ih ci s (r - (c : Int)) hw

/-- Any run emits the 5-minute warning at most once. -/
theorem monitor_warn5_le_one (f : Nat → Bool) (c : Nat) :
    ∀ (fuel ci : Nat) (s : MState) (r : Int),
      countEv .warn5 (monitor f ci s r c fuel).trace ≤ 1 := by
  intro fuel
  induction fuel with
  | zero =>
    intro ci s r
    simp [monitor]
  | succ n ih =>
    intro ci s r
    simp only [monitor]
    split_ifs with h0 hf h5 hf h1 hf
    · simp
    · simp
    · simp
    · have h := monitor_warn5_zero f c n (ci + 1) ⟨true, s.warned1⟩ (r - (c : Int)) rfl
      simp [h]
    · simp
    · have h := ih (ci + 1) ⟨s.warned5, true⟩ (r - (c : Int))
      simpa using h
    · exact ih ci s (r - (c : Int))

/-- Any run emits the 1-minute warning at most once. -/
theorem monitor_warn1_le_one (f : Nat → Bool) (c : Nat) :
    ∀ (fuel ci : Nat) (s : MState) (r : Int),
      countEv .warn1 (monitor f ci s r c fuel).trace ≤ 1 := by
  intro fuel
  induction fuel with
  | zero =>
    intro ci s r
    simp [monitor]
  | succ n ih =>
    intro ci s r
    simp only [monitor]
    split_ifs with h0 hf h5 hf h1 hf
    · simp
    · simp
    · simp
    · have h := ih (ci + 1) ⟨true, s.warned1⟩ (r - (c : Int))
      simpa using h
    · simp
    · have h := monitor_warn1_zero f c n (ci + 1) ⟨s.warned5, true⟩ (r - (c : Int)) rfl
      simp [h]
    · exact ih ci s (r - (c : Int))

/-- With a never-failing backend, a run given enough fuel always ends
with the end-of-session instruction followed by the grace sleep, with
no end event earlier in the trace, and the end fires at a poll whose
remaining time is non-positive. -/
theorem monitor_end_structure (c : Nat) (hc : 0 < c) :
    ∀ (fuel ci : Nat) (s : MState) (r : Int), r.toNat < fuel →
      ∃ pre re, (monitor noFail ci s r c fuel).trace = pre ++ [(re, .endMsg), (re, .grace)] ∧
        countEv .endMsg pre = 0 ∧ countEv .grace pre = 0 ∧ re ≤ 0 := by
  intro fuel
  induction fuel with
  | zero =>
    intro ci s r hr
    omega
  | succ n ih =>
    intro ci s r hr
    simp only [monitor, noFail, Bool.false_eq_true, if_false]
    split_ifs with h0 h5 h1
    · exact ⟨[], r, by simp, rfl, rfl, h0⟩
    · obtain ⟨pre, re, htr, he, hg, hre⟩ := ih (ci + 1) ⟨true, s.warned1⟩ (r - (c : Int)) (by omega)
      exact ⟨(r, .warn5) :: pre, re, by simp [htr], by simp [he], by simp [hg], hre⟩
    · obtain ⟨pre, re, htr, he, hg, hre⟩ := ih (ci + 1) ⟨s.warned5, true⟩ (r - (c : Int)) (by omega)
      exact ⟨(r, .warn1) :: pre, re, by simp [htr], by simp [he], by simp [hg], hre⟩
    · exact ih ci s (r - (c : Int)) (by omega)

/-- With a never-failing backend no exception ever propagates out of
the monitor task, whether the run is cancelled (small fuel) or not. -/
theorem monitor_noFail_not_crashed (c : Nat) :
    ∀ (fuel ci : Nat) (s : MState) (r : Int),
      (monitor noFail ci s r c fuel).crashed = false := by
  intro fuel
  induction fuel with
  | zero =>
    intro ci s r
    simp [monitor]
  | succ n ih =>
    intro ci s r
    simp only [monitor, noFail, Bool.false_eq_true, if_false]
    split_ifs with h0 h5 h1
    · rfl
    · simpa using ih (ci + 1) ⟨true, s.warned1⟩ (r - (c : Int))
    · simpa using ih (ci + 1) ⟨s.warned5, true⟩ (r - (c : Int))
    · exact ih ci s (r - (c : Int))

/-- Cancelling earlier only truncates the trace: the trace of a run
with fuel `k` extends to the trace of the same run with fuel
`k' ≥ k`.  In particular cancellation adds no side effect. -/
theorem monitor_trace_extends (f : Nat → Bool) (c : Nat) :
    ∀ (k k' ci : Nat) (s : MState) (r : Int), k ≤ k' →
      ∃ t2, (monitor f ci s r c k').trace = (monitor f ci s r c k).trace ++ t2 := by
  intro k
  induction k with
  | zero =>
    intro k' ci s r _
    exact ⟨(monitor f ci s r c k').trace, by simp [monitor]⟩
  | succ n ih =>
    intro k' ci s r hk
    match k', hk with
    | Nat.succ m, hk =>
      have hm : n ≤ m := Nat.succ_le_succ_iff.mp hk
      simp only [monitor]
      split_ifs with h0 hf h5 hf h1 hf
      · exact ⟨[], by simp⟩
      · exact ⟨[], by simp⟩
      · exact ⟨[], by simp⟩
      · obtain ⟨t2, ht⟩ := ih m (ci + 1) ⟨true, s.warned1⟩ (r - (c : Int)) hm
        exact ⟨t2, by simp [ht]⟩
      · exact ⟨[], by simp⟩
      · obtain ⟨t2, ht⟩ := ih m (ci + 1) ⟨s.warned5, true⟩ (r - (c : Int)) hm
        exact ⟨t2, by simp [ht]⟩
      · exact ih m ci s (r - (c : Int)) hm

/-- While every poll so far has seen more than 5 minutes remaining
(the `Running` state), the run has produced no side effect at all. -/
theorem monitor_running_trace_nil (c : Nat) :
    ∀ (k ci : Nat) (r : Int),
      (∀ i : Nat, i < k → (300 : Int) < r - (i : Int) * (c : Int)) →
      (monitor noFail ci MState.init r c k).trace = [] := by
  intro k
  induction k with
  | zero =>
    intro ci r _
    simp [monitor]
  | succ n ih =>
    intro ci r h
    have h0 : (300 : Int) < r := by simpa using h 0 (Nat.succ_pos n)
    simp only [monitor, noFail, Bool.false_eq_true, if_false]
    split_ifs with hend h5 h1
    · omega
    · exact absurd h5.1 (by omega)
    · exact absurd h1.1 (by omega)
    · apply ih ci (r - (c : Int))
      intro i hi
      have H := h (i + 1) (by omega)
      have heq : r - ((i : Int) + 1) * (c : Int) = r - (c : Int) - (i : Int) * (c : Int) := by
        ring
      push_cast at H
      rw [heq] at H
      exact H

/-- After both warnings have fired, the only remaining events are the
end pair, reached with enough fuel. -/
theorem monitor_both_warned_phase (c : Nat) (hc : 0 < c) :
    ∀ (fuel ci : Nat) (r : Int), r.toNat < fuel →
      ∃ re, monitor noFail ci ⟨true, true⟩ r c fuel =
          ⟨[(re, .endMsg), (re, .grace)], false, ⟨true, true⟩⟩ ∧ re ≤ 0 := by
  intro fuel
  induction fuel with
  | zero =>
    intro ci r hr
    omega
  | succ n ih =>
    intro ci r hr
    simp only [monitor, noFail, Bool.false_eq_true, if_false]
    split_ifs with h0 h5 h1
    · exact ⟨r, rfl, h0⟩
    · simp at h5
    · simp at h1
    · exact ih ci (r - (c : Int)) (by omega)

/-- After the 5-minute warning has fired, with cadence at most one
minute the 1-minute warning fires at a poll whose remaining time lies
in the interval from one minute minus the cadence (exclusive) to one
minute (inclusive), followed by the end pair. -/
theorem monitor_warned5_phase (c : Nat) (hc : 0 < c) (hc60 : c ≤ 60) :
    ∀ (fuel ci : Nat) (r : Int), (60 : Int) - (c : Int) < r → r.toNat < fuel →
      ∃ r1 re, monitor noFail ci ⟨true, false⟩ r c fuel =
          ⟨[(r1, .warn1), (re, .endMsg), (re, .grace)], false, ⟨true, true⟩⟩ ∧
        60 - (c : Int) < r1 ∧ r1 ≤ 60 ∧ re ≤ 0 := by
  intro fuel
  induction fuel with
  | zero =>
    intro ci r hlow hr
    omega
  | succ n ih =>
    intro ci r hlow hr
    have hrpos : 0 < r := by omega
    simp only [monitor, noFail, Bool.false_eq_true, if_false]
    split_ifs with h0 h5 h1
    · omega
    · simp at h5
    · obtain ⟨re, hre, hle⟩ := monitor_both_warned_phase c hc n (ci + 1) (r - (c : Int)) (by omega)
      refine ⟨r, re, ?_, hlow, h1.1, hle⟩
      simp [hre]
    · have h60 : (60 : Int) < r := by
        rcases lt_or_le 60 r with h | h
        · exact h
        · exact absurd ⟨h, trivial⟩ h1
      obtain ⟨r1, re, hrun, hb1, hb2, hb3⟩ := ih ci (r - (c : Int)) (by omega) (by omega)
      exact ⟨r1, re, hrun, hb1, hb2, hb3⟩

/-- Full normal run: from the initial state, with cadence at most one
minute and remaining time above five minutes minus one cadence, the
run produces exactly the 5-minute warning, the 1-minute warning and
the end pair, in that order, each warning within one cadence of its
threshold. -/
theorem monitor_init_phase (c : Nat) (hc : 0 < c) (hc60 : c ≤ 60) :
    ∀ (fuel ci : Nat) (r : Int), (300 : Int) - (c : Int) < r → r.toNat < fuel →
      ∃ r5 r1 re, monitor noFail ci MState.init r c fuel =
          ⟨[(r5, .warn5), (r1, .warn1), (re, .endMsg), (re, .grace)], false, ⟨true, true⟩⟩ ∧
        300 - (c : Int) < r5 ∧ r5 ≤ 300 ∧ 60 - (c : Int) < r1 ∧ r1 ≤ 60 ∧ re ≤ 0 := by
  intro fuel
  induction fuel with
  | zero =>
    intro ci r hlow hr
    omega
  | succ n ih =>
    intro ci r hlow hr
    have hrpos : 0 < r := by omega
    simp only [monitor, noFail, Bool.false_eq_true, if_false, MState.init]
    split_ifs with h0 h5 h1
    · omega
    · obtain ⟨r1, re, hrun, hb1, hb2, hb3⟩ :=
        monitor_warned5_phase c hc hc60 n (ci + 1) (r - (c : Int)) (by omega) (by omega)
      refine ⟨r, r1, re, ?_, hlow, h5.1, hb1, hb2, hb3⟩
      simp [hrun]
    · omega
    · have h300 : (300 : Int) < r := by
        rcases lt_or_le 300 r with h | h
        · exact h
        · exact absurd ⟨h, trivial⟩ h5
      obtain ⟨r5, r1, re, hrun, hb⟩ := ih ci (r - (c : Int)) (by omega) (by omega)
      exact ⟨r5, r1, re, hrun, hb⟩

/-- C3 (amended): if issuing a warning instruction fails, the poll
loop does crash (only `CancelledError` is caught, so the backend error
propagates out of the task) and the warning is treated as already
fired: the source assigns the fired flag before the awaited call, so
the outcome of a failing warning call is a crashed run with an empty
event trace and the corresponding flag set.  No retry can occur. -/
theorem C3_warning_failure_crashes_loop_and_flag_stays_set (f : Nat → Bool) (c : Nat) :
    ∀ (fuel ci : Nat) (s : MState) (r : Int), 0 < fuel → f ci = true →
      ((0 < r → r ≤ 300 → s.warned5 = false →
          monitor f ci s r c fuel = ⟨[], true, ⟨true, s.warned1⟩⟩) ∧
       (0 < r → r ≤ 60 → s.warned5 = true → s.warned1 = false →
          monitor f ci s r c fuel = ⟨[], true, ⟨true, true⟩⟩)) := by
  intro fuel ci s r hfuel hf
  match fuel, hfuel with
  | Nat.succ n, _ =>
    constructor
    · intro hrpos hr300 hw5
      simp only [monitor]
      rw [if_neg (by omega), if_pos ⟨hr300, hw5⟩, if_pos hf]
    · intro hrpos hr60 hw5 hw1
      simp only [monitor]
      rw [if_neg (by omega), if_neg (by simp [hw5]), if_pos ⟨hr60, hw1⟩, if_pos hf]
      rw [hw5]

/-- C4 (amended): if the end-of-session `generate_reply` call fails
with a backend error, the controller does not proceed through the
10-second grace interval: the exception propagates (there is no
try/except around `_end_session`), the grace sleep is skipped and the
monitor task terminates with the error instead of reaching the
terminal state normally.  Termination is still not blocked — the task
ends either way — but not via the grace interval the claim states. -/
theorem C4_end_failure_skips_grace_interval (f : Nat → Bool) (c : Nat) :
    ∀ (fuel ci : Nat) (s : MState) (r : Int), 0 < fuel → r ≤ 0 → f ci = true →
      monitor f ci s r c fuel = ⟨[], true, s⟩ := by
  intro fuel ci s r hfuel hr hf
  match fuel, hfuel with
  | Nat.succ n, _ =>
    simp only [monitor]
    rw [if_pos hr, if_pos hf]

/-! ## Claim theorems -/

/-- C1: for every session (any remaining time, any cadence, enough
fuel to finish), the monitor emits the 5-minute warning at most once
and the 1-minute warning at most once — repeated polls never re-issue
a fired warning — and the end-of-session action fires exactly once, at
the very end of the trace (followed only by its own grace sleep), with
no clock-driven action after it. -/
theorem C1_warnings_at_most_once_end_exactly_once (r : Int) (c fuel : Nat)
    (hc : 0 < c) (hfuel : r.toNat < fuel) :
    countEv .warn5 (monitor noFail 0 MState.init r c fuel).trace ≤ 1 ∧
    countEv .warn1 (monitor noFail 0 MState.init r c fuel).trace ≤ 1 ∧
    ∃ pre re, (monitor noFail 0 MState.init r c fuel).trace =
        pre ++ [(re, .endMsg), (re, .grace)] ∧
      countEv .endMsg pre = 0 ∧ countEv .grace pre = 0 := by
  obtain ⟨pre, re, h1, h2, h3, _⟩ := monitor_end_structure c hc fuel 0 MState.init r hfuel
  exact ⟨monitor_warn5_le_one noFail c fuel 0 MState.init r,
    monitor_warn1_le_one noFail c fuel 0 MState.init r, pre, re, h1, h2, h3⟩

/-- C1 witness: a concrete completed run (40 seconds remaining,
30-second cadence). -/
theorem C1_witness :
    countEv .warn5 (monitor noFail 0 MState.init 40 30 41).trace ≤ 1 ∧
    countEv .warn1 (monitor noFail 0 MState.init 40 30 41).trace ≤ 1 ∧
    ∃ pre re, (monitor noFail 0 MState.init 40 30 41).trace =
        pre ++ [(re, .endMsg), (re, .grace)] ∧
      countEv .endMsg pre = 0 ∧ countEv .grace pre = 0 :=
  C1_warnings_at_most_once_end_exactly_once 40 30 41 (by decide) (by decide)

/-- C2: evaluation of the code at the failing input.  Starting with
45 seconds remaining (≤ 1 minute and > 0) at the reference cadence of
30 seconds, the first poll issues the 5-minute warning — the if/elif
chain tests the 5-minute threshold first and its flag is still unset —
then the next poll issues the 1-minute warning, then the end sequence.
The claim (and spec) say the 5-minute warning is never issued in such
a run, so the code contradicts it: the session is told "about 5
minutes left" when under a minute remains. -/
theorem C2_five_minute_warning_fires_when_under_one_minute :
    countEv .warn5 (monitor noFail 0 MState.init 45 30 4).trace = 1 ∧
    (monitor noFail 0 MState.init 45 30 4).trace =
      [(45, .warn5), (15, .warn1), (-15, .endMsg), (-15, .grace)] :=
  ⟨rfl, rfl⟩

/-- C3 counterexample: a concrete run refuting the claim as stated.
With 280 seconds remaining the 5-minute warning call fails; the run
crashes (`crashed = true`, the claim says the poll loop does not
crash) and the flag is left set (`warned5 = true`, the claim says the
warning is treated as not-yet-fired), with no event emitted and no
retry ever happening. -/
theorem C3_counterexample :
    (monitor failFirst 0 MState.init 280 30 5).crashed = true ∧
    (monitor failFirst 0 MState.init 280 30 5).final.warned5 = true ∧
    (monitor failFirst 0 MState.init 280 30 5).trace = [] :=
  ⟨rfl, rfl, rfl⟩

/-- C3 witness: the amended theorem applied at concrete inputs for
both warning kinds (first call fails in each run). -/
theorem C3_witness :
    monitor failFirst 0 MState.init 280 30 1 = ⟨[], true, ⟨true, false⟩⟩ ∧
    monitor failFirst 0 ⟨true, false⟩ 45 30 1 = ⟨[], true, ⟨true, true⟩⟩ :=
  ⟨(C3_warning_failure_crashes_loop_and_flag_stays_set failFirst 30 1 0 MState.init 280
      (by decide) rfl).1 (by decide) (by decide) rfl,
   (C3_warning_failure_crashes_loop_and_flag_stays_set failFirst 30 1 0 ⟨true, false⟩ 45
      (by decide) rfl).2 (by decide) (by decide) rfl rfl⟩

/-- C4 counterexample: a concrete run refuting the claim as stated.
With the session expired (remaining 0) and the end-of-session call
failing, the run crashes, no grace event occurs (the claim says the
controller still proceeds through the 10-second grace interval to the
terminal state) and the trace is empty. -/
theorem C4_counterexample :
    (monitor failFirst 0 MState.init 0 30 3).crashed = true ∧
    countEv .grace (monitor failFirst 0 MState.init 0 30 3).trace = 0 ∧
    (monitor failFirst 0 MState.init 0 30 3).trace = [] :=
  ⟨rfl, rfl, rfl⟩

/-- C4 witness: the amended theorem applied at a concrete input. -/
theorem C4_witness :
    monitor failFirst 0 MState.init 0 30 1 = ⟨[], true, MState.init⟩ :=
  C4_end_failure_skips_grace_interval failFirst 30 1 0 MState.init 0
    (by decide) (by decide) rfl

/-- C5 counterexample: the claim quantifies over every poll cadence
`C`, but with a cadence of 301 seconds and an initial remaining time
of 310 seconds (> 5 minutes) the single poll between the two
thresholds jumps from above 5 minutes to 9 seconds, so the 5-minute
warning fires and the very next poll is already past zero: the
1-minute warning never fires, refuting "both warnings fire ... each
exactly once" for that cadence. -/
theorem C5_counterexample :
    (300 : Int) < 310 ∧
    countEv .warn1 (monitor noFail 0 MState.init 310 301 5).trace = 0 ∧
    (monitor noFail 0 MState.init 310 301 5).trace =
      [(9, .warn5), (-292, .endMsg), (-292, .grace)] :=
  ⟨by decide, rfl, rfl⟩

/-- C5 (amended): for every duration and every poll cadence of at
most one minute (the source fixes 30 seconds), if the controller
starts with remaining time > 5 minutes then both warnings fire in
order — the 5-minute warning strictly before the 1-minute warning —
each exactly once, each no earlier than its nominal threshold
(remaining ≤ threshold at the firing poll) and at most one poll
interval after it (remaining > threshold − cadence), followed by the
end sequence. -/
theorem C5_both_warnings_fire_in_order_within_one_interval (r : Int) (c fuel : Nat)
    (hr : (300 : Int) < r) (hc : 0 < c) (hc60 : c ≤ 60) (hfuel : r.toNat < fuel) :
    ∃ r5 r1 re, monitor noFail 0 MState.init r c fuel =
        ⟨[(r5, .warn5), (r1, .warn1), (re, .endMsg), (re, .grace)], false, ⟨true, true⟩⟩ ∧
      300 - (c : Int) < r5 ∧ r5 ≤ 300 ∧ 60 - (c : Int) < r1 ∧ r1 ≤ 60 ∧ re ≤ 0 :=
  monitor_init_phase c hc hc60 fuel 0 r (by omega) hfuel

/-- C5 witness: a concrete run with 400 seconds remaining at the
reference cadence of 30 seconds. -/
theorem C5_witness :
    ∃ r5 r1 re, monitor noFail 0 MState.init 400 30 401 =
        ⟨[(r5, .warn5), (r1, .warn1), (re, .endMsg), (re, .grace)], false, ⟨true, true⟩⟩ ∧
      300 - (30 : Int) < r5 ∧ r5 ≤ 300 ∧ 60 - (30 : Int) < r1 ∧ r1 ≤ 60 ∧ re ≤ 0 :=
  C5_both_warnings_fire_in_order_within_one_interval 400 30 401
    (by decide) (by decide) (by decide) (by decide)

/-- C6: cancelling the monitoring task at any point (`stop_monitoring`
after `k` of `k'` polls) only truncates the event trace — no further
side effects occur after cancellation; the cancelled run terminates
normally (`CancelledError` is caught with `pass`, so `crashed =
false`, no user-visible failure); and cancellation issued while every
poll so far was still in the Running state (more than 5 minutes
remaining) yields a run with zero instruction calls. -/
theorem C6_cancellation_truncates_without_failure (r : Int) (c k k' : Nat) (hk : k ≤ k') :
    (∃ t2, (monitor noFail 0 MState.init r c k').trace =
        (monitor noFail 0 MState.init r c k).trace ++ t2) ∧
    (monitor noFail 0 MState.init r c k).crashed = false ∧
    ((∀ i : Nat, i < k → (300 : Int) < r - (i : Int) * (c : Int)) →
      (monitor noFail 0 MState.init r c k).trace = []) :=
  ⟨monitor_trace_extends noFail c k k' 0 MState.init r hk,
   monitor_noFail_not_crashed c k 0 MState.init r,
   monitor_running_trace_nil c k 0 r⟩

/-- C6 witness: cancellation after 3 of 20 polls of a 400-second
session at cadence 30; all three polls are still above the 5-minute
threshold, so the cancelled run has an empty trace. -/
theorem C6_witness :
    (∃ t2, (monitor noFail 0 MState.init 400 30 20).trace =
        (monitor noFail 0 MState.init 400 30 3).trace ++ t2) ∧
    (monitor noFail 0 MState.init 400 30 3).crashed = false ∧
    (monitor noFail 0 MState.init 400 30 3).trace = [] := by
  obtain ⟨h1, h2, h3⟩ := C6_cancellation_truncates_without_failure 400 30 3 20 (by decide)
  exact ⟨h1, h2, h3 (by intro i hi; omega)⟩

/-- C7 counterexample: on the reference input (no `duration` key) the
code produces a duration of 30 minutes, not the 15 minutes the claim
states: `transform_ui_metadata` treats `duration` as a unit count
(default 2) and multiplies it by the per-type base (15 for
"interview"). -/
theorem C7_counterexample :
    transform_ui_metadata refInput = some refOutput ∧
    alist_get refOutput "duration_minutes" = some (.n 30) ∧
    (30 : Int) ≠ 15 :=
  ⟨rfl, rfl, by decide⟩

/-- C7 (amended): the Configuration Normalizer treats the external
duration field as a unit count with default 2, multiplied by the
per-agent-type base minutes (15 for "interview"): for every input of
type "interview" with no duration key on which the normalizer returns
a dict — in particular the reference input — the resulting session
duration is 30 minutes. -/
theorem C7_duration_is_multiplier_with_default_two (ui : List (String × JValue))
    (out : List (String × OutValue)) (h : transform_ui_metadata ui = some out)
    (ht : alist_get ui "type" = some (.s "interview"))
    (hd : alist_get ui "duration" = none) :
    alist_get out "duration_minutes" = some (.n 30) := by
  rcases hdesc : alist_get ui "description" with _ | v
  · simp only [transform_ui_metadata, hdesc, ht, hd, Option.some.injEq] at h
    subst h
    simp [alist_get, pyMulInt, duration_mapping]
  · cases v with
    | s w =>
      simp only [transform_ui_metadata, hdesc, ht, hd, Option.some.injEq] at h
      subst h
      simp [alist_get, pyMulInt, duration_mapping]
    | n w =>
      simp [transform_ui_metadata, hdesc] at h

/-- C7 witness: the amended theorem at the reference input. -/
theorem C7_witness :
    alist_get refOutput "duration_minutes" = some (.n 30) :=
  C7_duration_is_multiplier_with_default_two refInput refOutput rfl rfl rfl

/-- C8 counterexample: the claim quantifies over every input mapping,
but on the mapping whose description value is the integer 5 the source
raises `TypeError` — `". ".join(description_parts)` rejects the
non-string element appended from the raw description — so no dict is
returned and no description is synthesized at all. -/
theorem C8_counterexample :
    transform_ui_metadata [("description", JValue.n 5)] = none :=
  rfl

/-- C8 (amended): for every input mapping on which the normalizer
returns at all — those whose description value, when present, is a
string; on the rest `". ".join` raises `TypeError` and nothing is
synthesized — the description of the returned dict is the ". "-joined
concatenation, in order, of the raw description, the "Interviewer:"
clause, the "Level:" clause and the "Specialty:" clause, each present
exactly when its key is (absent parts shorten the string); the gender
defaults to female when the key is absent; and on the reference input
the description is "X. Interviewer: Sarah. Level: L5" with gender
female. -/
theorem C8_description_synthesis_and_gender_default (ui : List (String × JValue))
    (out : List (String × OutValue)) (h : transform_ui_metadata ui = some out) :
    alist_get out "description" = some (.s (specDescription ui)) ∧
    (alist_get ui "gender" = none → alist_get out "gender" = some (.s "female")) ∧
    transform_ui_metadata refInput = some refOutput ∧
    alist_get refOutput "description" =
      some (.s "X. Interviewer: Sarah. Level: L5") ∧
    alist_get refOutput "gender" = some (.s "female") := by
  refine ⟨?_, ?_, rfl, rfl, rfl⟩
  · rcases hdesc : alist_get ui "description" with _ | v
    · simp only [transform_ui_metadata, hdesc, Option.some.injEq] at h
      subst h
      rcases h2 : alist_get ui "display_name" with _ | dn <;>
        rcases h3 : alist_get ui "level" with _ | lv <;>
          rcases h4 : alist_get ui "specialty" with _ | sp <;>
            simp [alist_get, specDescription, pyStr, hdesc, h2, h3, h4, String.intercalate]
    · cases v with
      | s w =>
        simp only [transform_ui_metadata, hdesc, Option.some.injEq] at h
        subst h
        rcases h2 : alist_get ui "display_name" with _ | dn <;>
          rcases h3 : alist_get ui "level" with _ | lv <;>
            rcases h4 : alist_get ui "specialty" with _ | sp <;>
              simp [alist_get, specDescription, pyStr, hdesc, h2, h3, h4, String.intercalate]
      | n w =>
        simp [transform_ui_metadata, hdesc] at h
  · intro hg
    rcases hdesc : alist_get ui "description" with _ | v
    · simp only [transform_ui_metadata, hdesc, hg, Option.some.injEq] at h
      subst h
      simp [alist_get, JValue.toOut]
    · cases v with
      | s w =>
        simp only [transform_ui_metadata, hdesc, hg, Option.some.injEq] at h
        subst h
        simp [alist_get, JValue.toOut]
      | n w =>
        simp [transform_ui_metadata, hdesc] at h

/-- C8 witness: the amended theorem discharged at the reference
input, whose gender key is absent and whose description is a
string. -/
theorem C8_witness :
    alist_get refOutput "description" = some (.s (specDescription refInput)) ∧
    alist_get refOutput "gender" = some (.s "female") :=
  ⟨(C8_description_synthesis_and_gender_default refInput refOutput rfl).1,
   (C8_description_synthesis_and_gender_default refInput refOutput rfl).2.1 rfl⟩

/-- Membership of the embedded `random.choice`: every draw from a
non-empty list is an element of the list. -/
theorem py_choice_mem (l : List String) (pick : Nat) (h : l ≠ []) :
    py_choice l pick ∈ l := by
  have hlen : 0 < l.length := List.length_pos.mpr h
  have hm : pick % l.length < l.length := Nat.mod_lt _ hlen
  unfold py_choice
  rw [List.getD_eq_getElem?_getD, List.getElem?_eq_getElem hm]
  exact List.getElem_mem hm

/-- C9: for the Google backend every call with gender "male" returns
a voice from the male set; any gender whose lowercase form matches no
table key falls back to the female set; and any backend identifier
other than "google"/"openai" (after lowercasing) falls back to the
Google provider. -/
theorem C9_voice_sets_and_provider_fallback :
    (∀ pick : Nat, GoogleLLMProvider.get_random_voice_for_gender "male" pick ∈
      (["Puck", "Charon", "Fenrir"] : List String)) ∧
    (∀ (g : String) (pick : Nat), py_lower g ≠ "male" → py_lower g ≠ "female" →
      GoogleLLMProvider.get_random_voice_for_gender g pick ∈
        (["Aoede", "Kore"] : List String)) ∧
    (∀ p : String, py_lower p ≠ "google" → py_lower p ≠ "openai" →
      LLMFactory.get_provider p = ProviderKind.google) := by
  refine ⟨fun pick => ?_, fun g pick h1 h2 => ?_, fun p h1 h2 => ?_⟩
  · have h : GoogleLLMProvider.get_random_voice_for_gender "male" pick =
        py_choice ["Puck", "Charon", "Fenrir"] pick := rfl
    rw [h]
    exact py_choice_mem _ _ (by simp)
  · have hnone : alist_get GoogleLLMProvider.GENDER_VOICES (py_lower g) = none := by
      simp only [GoogleLLMProvider.GENDER_VOICES, alist_get]
      rw [if_neg (fun e => h1 e.symm), if_neg (fun e => h2 e.symm)]
    have h : GoogleLLMProvider.get_random_voice_for_gender g pick =
        py_choice ["Aoede", "Kore"] pick := by
      simp [GoogleLLMProvider.get_random_voice_for_gender, hnone]
      rfl
    rw [h]
    exact py_choice_mem _ _ (by simp)
  · have hnone : alist_get LLMFactory.providers (py_lower p) = none := by
      simp only [LLMFactory.providers, alist_get]
      rw [if_neg (fun e => h1 e.symm), if_neg (fun e => h2 e.symm)]
    simp [LLMFactory.get_provider, hnone]

/-- C9 witness: concrete draws — gender "male" with a draw index of
4, an unrecognized gender "Robot", and an unknown backend "azure". -/
theorem C9_witness :
    GoogleLLMProvider.get_random_voice_for_gender "male" 4 ∈
      (["Puck", "Charon", "Fenrir"] : List String) ∧
    GoogleLLMProvider.get_random_voice_for_gender "Robot" 1 ∈
      (["Aoede", "Kore"] : List String) ∧
    LLMFactory.get_provider "azure" = ProviderKind.google :=
  ⟨C9_voice_sets_and_provider_fallback.1 4,
   C9_voice_sets_and_provider_fallback.2.1 "Robot" 1 (by decide) (by decide),
   C9_voice_sets_and_provider_fallback.2.2 "azure" (by decide) (by decide)⟩

/-- C10 counterexample: the claim quantifies over every input
mapping, but on the mapping with type "interview" and the integer 7 as
description value the source raises `TypeError` at the description
join and returns no dict at all, so there is no output carrying the
five keys for that input. -/
theorem C10_counterexample :
    transform_ui_metadata [("type", JValue.s "interview"), ("description", JValue.n 7)] =
      none :=
  rfl

/-- C10 (amended): for every input mapping on which the normalizer
returns a dict (those whose description value, when present, is a
string; on the rest the source raises `TypeError` and returns
nothing), the output carries exactly the keys `agent_type`,
`description`, `gender`, `duration_minutes` and `_original`, in source
order, and `_original` holds the unmodified original input mapping
verbatim. -/
theorem C10_output_keys_and_original_passthrough (ui : List (String × JValue))
    (out : List (String × OutValue)) (h : transform_ui_metadata ui = some out) :
    out.map Prod.fst =
      ["agent_type", "description", "gender", "duration_minutes", "_original"] ∧
    alist_get out "_original" = some (.obj ui) := by
  rcases hdesc : alist_get ui "description" with _ | v
  · simp only [transform_ui_metadata, hdesc, Option.some.injEq] at h
    subst h
    exact ⟨rfl, by simp [alist_get]⟩
  · cases v with
    | s w =>
      simp only [transform_ui_metadata, hdesc, Option.some.injEq] at h
      subst h
      exact ⟨rfl, by simp [alist_get]⟩
    | n w =>
      simp [transform_ui_metadata, hdesc] at h

/-- C10 witness: the amended theorem at the reference input. -/
theorem C10_witness :
    refOutput.map Prod.fst =
      ["agent_type", "description", "gender", "duration_minutes", "_original"] ∧
    alist_get refOutput "_original" = some (.obj refInput) :=
  C10_output_keys_and_original_passthrough refInput refOutput rfl

end Liftoff
